import Mathlib

/-!
# Verification of the banking transaction processor

Shallow embedding of `src/src/week-1/task-1/index.js` (the only rule-based
component of the repository, per the spec's scope).

Modelling conventions:
* JS numbers are modelled as exact rationals (`Rat`).  All numeric values the
  program manipulates are finite (non-finite results of `Number()` coercion are
  turned into `null` by `toNumber` before they reach any arithmetic), so the
  embedding carries only finite numbers.
* A JS value that can appear in an input field is modelled by `JSValue`:
  numbers, strings, booleans, `null`, `undefined` (also standing for an absent
  field), and an opaque plain object (whose `Number()` coercion is `NaN`,
  hence `toNumber` yields `none`).  Hexadecimal / binary / octal string
  literals and `Infinity` strings are not modelled by the string parser; the
  parser returns `none` for them, which coincides with `toNumber`'s `null`
  for `Infinity` and is never exercised by the repository's data.
* Error messages built with template literals are modelled as tagged
  constructors carrying the interpolated payloads, so no information of the
  message is lost while avoiding a model of JS number-to-string printing.
* The `try`/`catch` structural-error flow of `processBankingTransaction` is
  modelled by early returns producing the single system-level rejected entry
  the `catch` block pushes.
-/

/-- A JavaScript runtime value as far as the banking script can observe it.
`undefined` also models an absent object field (JS property access on a
missing key).  `object` is an opaque non-null object that is not a valid
transaction record (its `Number(·)` coercion is `NaN`). -/
inductive JSValue where
  | num : Rat → JSValue
  | str : String → JSValue
  | bool : Bool → JSValue
  | null : JSValue
  | undefined : JSValue
  | object : JSValue
  deriving DecidableEq

/-- JS truthiness: `!v` in the source is `¬ v.isTruthy`.  Falsy values are
`0`, `""`, `false`, `null`, `undefined`. -/
def JSValue.isTruthy : JSValue → Bool
  | .num q => q != 0
  | .str s => s != ""
  | .bool b => b
  | .null => false
  | .undefined => false
  | .object => true

/-- JS whitespace trimmed by `Number(string)` coercion (the common cases). -/
def jsWhitespace (c : Char) : Bool :=
  c = ' ' || c = '\t' || c = '\n' || c = '\r'

/-- Trim leading and trailing whitespace from a character list. -/
def jsTrim (cs : List Char) : List Char :=
  ((cs.dropWhile jsWhitespace).reverse.dropWhile jsWhitespace).reverse

/-- Value of a list of decimal digit characters. -/
def digitsVal (cs : List Char) : Nat :=
  cs.foldl (fun a c => a * 10 + (c.toNat - 48)) 0

/-- Parse the mantissa part of a decimal numeric string: `D+`, `D+.D*` or
`.D+` (at least one digit overall). -/
def parseMantissa (cs : List Char) : Option Rat :=
  match cs.splitOn '.' with
  | [intPart] =>
      if intPart ≠ [] ∧ intPart.all Char.isDigit then
        some (digitsVal intPart)
      else none
  | [intPart, fracPart] =>
      if (intPart ≠ [] ∨ fracPart ≠ []) ∧ intPart.all Char.isDigit ∧
          fracPart.all Char.isDigit then
        some ((digitsVal intPart : Rat) +
          (digitsVal fracPart : Rat) / (10 : Rat) ^ fracPart.length)
      else none
  | _ => none

/-- Split a character list at the first exponent marker `e`/`E`. -/
def splitExp : List Char → List Char × Option (List Char)
  | [] => ([], none)
  | c :: rest =>
      if c = 'e' ∨ c = 'E' then ([], some rest)
      else
        let (m, e) := splitExp rest
        (c :: m, e)

/-- Parse an (optionally signed) exponent made of decimal digits. -/
def parseExp : List Char → Option Int
  | '+' :: rest =>
      if rest ≠ [] ∧ rest.all Char.isDigit then some (digitsVal rest) else none
  | '-' :: rest =>
      if rest ≠ [] ∧ rest.all Char.isDigit then
        some (-(digitsVal rest : Int))
      else none
  | cs =>
      if cs ≠ [] ∧ cs.all Char.isDigit then some (digitsVal cs) else none

/-- Parse an unsigned decimal numeric string, with optional exponent. -/
def parseUnsigned (cs : List Char) : Option Rat :=
  match splitExp cs with
  | (mant, none) => parseMantissa mant
  | (mant, some e) =>
      match parseMantissa mant, parseExp e with
      | some m, some k => some (m * (10 : Rat) ^ k)
      | _, _ => none

/-- The string-to-number part of JS `Number(·)` on decimal strings: trimmed;
empty and all-whitespace strings coerce to `0`; otherwise an optional sign
followed by a decimal mantissa and optional exponent. -/
def parseJSNumber (s : String) : Option Rat :=
  let cs := jsTrim s.data
  if cs = [] then some 0
  else
    match cs with
    | '+' :: rest => parseUnsigned rest
    | '-' :: rest => (parseUnsigned rest).map (fun q => -q)
    | _ => parseUnsigned cs

/-- `toNumber` from the source: `Number(value)` followed by the
finite/non-NaN filter; `none` models the source's `null`.
JS coercion: numbers pass through, strings parse, `true ↦ 1`, `false ↦ 0`,
`null ↦ 0`, `undefined ↦ NaN` (hence `none`), plain objects `↦ NaN`. -/
def toNumber : JSValue → Option Rat
  | .num q => some q
  | .str s => parseJSNumber s
  | .bool b => some (if b then 1 else 0)
  | .null => some 0
  | .undefined => none
  | .object => none

/-- `isTransactionType` from the source: the value must be a string and one
of `"Deposit"`, `"Withdraw"` (case-sensitive). -/
def isTransactionType : JSValue → Bool
  | .str s => s = "Deposit" || s = "Withdraw"
  | _ => false

/-- An element of the `transactions` array.  `mk ty am` is an object element
with `type` field `ty` and `amount` field `am` (absent fields are
`.undefined`); `notAnObject` is any element failing the source's
`!txn || typeof txn !== "object"` guard (null, numbers, strings, booleans,
undefined), all of which behave identically from that point on. -/
inductive Txn where
  | mk (type amount : JSValue) : Txn
  | notAnObject : Txn
  deriving DecidableEq

/-- `transaction.type === s` from the source, for a string literal `s`. -/
def Txn.typeIs : Txn → String → Bool
  | .mk ty _, s => ty = JSValue.str s
  | .notAnObject, _ => false

/-- A rejection reason produced by the per-transaction validation, as a
tagged constructor carrying the payloads of the source's template literal. -/
inductive Reason where
  | invalidTransactionObject
  | missingTransactionType
  | unknownTransactionType (value : JSValue)
  | missingTransactionAmount
  | invalidAmount (raw : JSValue)
  | amountMustBePositive (amount : Rat)
  | insufficientBalance (required available : Rat)
  deriving DecidableEq

/-- Result of `validateTransaction`: `ok` carries the coerced amount. -/
inductive ValidationResult where
  | ok (amount : Rat)
  | err (reason : Reason)
  deriving DecidableEq

/-- `validateTransaction` from the source, checks in source order. -/
def validateTransaction : Txn → ValidationResult
  | .notAnObject => .err .invalidTransactionObject
  | .mk ty am =>
      if ty.isTruthy = false then .err .missingTransactionType
      else if isTransactionType ty = false then .err (.unknownTransactionType ty)
      else if am = .undefined ∨ am = .null then .err .missingTransactionAmount
      else
        match toNumber am with
        | none => .err (.invalidAmount am)
        | some amount =>
            if amount ≤ 0 then .err (.amountMustBePositive amount)
            else .ok amount

/-- The account record built by `processBankingTransaction`.  The three
descriptor fields are kept as the JS values they were destructured from. -/
structure Account where
  accountNumber : JSValue
  accountHolder : JSValue
  currency : JSValue
  initialBalance : Rat
  balance : Rat
  deriving DecidableEq

/-- Outcome of `applyTransaction` for one element: the source's
`{applied, reason?, transaction}` record.  `index` is the stored 1-based
position (`index + 1` in the source); for `applied` the coerced `amount`
is the one spread into the stored transaction record. -/
inductive Outcome where
  | applied (transaction : Txn) (amount : Rat) (index : Nat)
  | rejected (transaction : Txn) (reason : Reason) (index : Nat)
  deriving DecidableEq

/-- `applyTransaction` from the source.  The account mutation
(`account.balance += ...`) is modelled by returning the updated account. -/
def applyTransaction (account : Account) (index : Nat) (transaction : Txn) :
    Outcome × Account :=
  match validateTransaction transaction with
  | .err reason => (.rejected transaction reason (index + 1), account)
  | .ok amount =>
      if transaction.typeIs "Withdraw" ∧ amount > account.balance then
        (.rejected transaction (.insufficientBalance amount account.balance)
          (index + 1), account)
      else
        (.applied transaction amount (index + 1),
         { account with
            balance := account.balance +
              (if transaction.typeIs "Deposit" then amount else -amount) })

/-- An entry of the `applied` array: the transaction spread with its coerced
amount and 1-based index. -/
structure AppliedEntry where
  transaction : Txn
  amount : Rat
  index : Nat
  deriving DecidableEq

/-- A structural (system-level) error message thrown by
`processBankingTransaction`, as a tagged constructor. -/
inductive SystemError where
  | inputMustBeObject
  | missingAccountNumber
  | missingAccountHolder
  | missingInitialBalance
  | missingCurrency
  | transactionsMustBeArray
  | invalidInitialBalance (raw : JSValue)
  deriving DecidableEq

/-- An entry of the `rejected` array: either a per-transaction rejection
(the full `applyTransaction` result) or the single system-level entry
pushed by the `catch` block (which carries no position). -/
inductive RejectedEntry where
  | txn (transaction : Txn) (reason : Reason) (index : Nat)
  | system (message : SystemError)
  deriving DecidableEq

/-- The final audit-log message: `Completed: N applied, M rejected.` on a
run that created an account, otherwise the structural error message. -/
inductive LogMessage where
  | completed (appliedCount rejectedCount : Nat)
  | systemError (e : SystemError)
  deriving DecidableEq

/-- Everything `processBankingTransaction` computes and reports: the two
outcome sequences, the final account (`none` when a structural error
aborted the run before the account was created) and the audit message. -/
structure ProcessResult where
  applied : List AppliedEntry
  rejected : List RejectedEntry
  account : Option Account
  logMessage : LogMessage
  deriving DecidableEq

/-- The result produced when a structural error is thrown: the `catch`
block pushes one system-level entry, `account` is still `null`, and the
audit log carries the error message. -/
def structuralResult (e : SystemError) : ProcessResult :=
  { applied := [], rejected := [.system e], account := none,
    logMessage := .systemError e }

/-- The top-level input.  `obj` models a proper object input with its five
destructured fields (`.undefined` for an absent field); the `transactions`
field is `some list` when `Array.isArray` holds and `none` for any
non-array value (including absent).  `notAnObject` is any input failing
`!input || typeof input !== "object"`. -/
inductive Input where
  | obj (accountNumber accountHolder initialBalance currency : JSValue)
        (transactions : Option (List Txn)) : Input
  | notAnObject : Input

/-- The `transactions.forEach` loop: applies each element in order against
the running account, partitioning results into the `applied` and `rejected`
arrays (`i` is the 0-based index of the first element). -/
def processLoop (account : Account) (i : Nat) :
    List Txn → List AppliedEntry × List RejectedEntry × Account
  | [] => ([], [], account)
  | t :: rest =>
      match applyTransaction account i t with
      | (.applied txn amount idx, account') =>
          let (as, rs, accF) := processLoop account' (i + 1) rest
          (⟨txn, amount, idx⟩ :: as, rs, accF)
      | (.rejected txn reason idx, account') =>
          let (as, rs, accF) := processLoop account' (i + 1) rest
          (as, .txn txn reason idx :: rs, accF)

/-- `processBankingTransaction` from the source: structural checks in source
order (each `throw` lands in the `catch` block, producing
`structuralResult`), then account creation and the transaction loop. -/
def processBankingTransaction (input : Input) : ProcessResult :=
  match input with
  | .notAnObject => structuralResult .inputMustBeObject
  | .obj accountNumber accountHolder initialBalance currency transactions =>
      if accountNumber.isTruthy = false then
        structuralResult .missingAccountNumber
      else if accountHolder.isTruthy = false then
        structuralResult .missingAccountHolder
      else if initialBalance = .undefined ∨ initialBalance = .null then
        structuralResult .missingInitialBalance
      else if currency.isTruthy = false then
        structuralResult .missingCurrency
      else
        match transactions with
        | none => structuralResult .transactionsMustBeArray
        | some txnList =>
            match toNumber initialBalance with
            | none => structuralResult (.invalidInitialBalance initialBalance)
            | some startingBalance =>
                let account : Account :=
                  ⟨accountNumber, accountHolder, currency,
                    startingBalance, startingBalance⟩
                let (as, rs, accF) := processLoop account 0 txnList
                { applied := as, rejected := rs, account := some accF,
                  logMessage := .completed as.length rs.length }

/-- Sum of the coerced amounts of the applied entries whose type field is
the string `s`. -/
def sumOfType (s : String) (as : List AppliedEntry) : Rat :=
  (as.filter (fun e => e.transaction.typeIs s)).foldr
    (fun e acc => e.amount + acc) 0

/-- 0-based position of a rejected entry's stored 1-based index
(`0` for the system-level entry, which carries no position). -/
def RejectedEntry.position : RejectedEntry → Nat
  | .txn _ _ idx => idx
  | .system _ => 0

theorem sumOfType_nil (s : String) : sumOfType s [] = 0 := rfl

theorem sumOfType_cons (s : String) (e : AppliedEntry) (as : List AppliedEntry) :
    sumOfType s (e :: as) =
      (if e.transaction.typeIs s then e.amount else 0) + sumOfType s as := by
  by_cases h : e.transaction.typeIs s = true <;>
    simp [sumOfType, List.filter_cons, h]

theorem typeIs_deposit_not_withdraw {t : Txn} (h : t.typeIs "Deposit" = true) :
    t.typeIs "Withdraw" = false := by
  cases t with
  | notAnObject => simp [Txn.typeIs] at h
  | mk ty am =>
      simp only [Txn.typeIs, decide_eq_true_eq] at h
      simp [Txn.typeIs, h]

theorem validateTransaction_ok_type {t : Txn} {a : Rat}
    (h : validateTransaction t = .ok a) :
    (t.typeIs "Deposit" = true ∨ t.typeIs "Withdraw" = true) ∧ 0 < a := by
  cases t with
  | notAnObject => simp [validateTransaction] at h
  | mk ty am =>
      simp only [validateTransaction] at h
      by_cases h1 : ty.isTruthy = false
      · simp [h1] at h
      · rw [if_neg h1] at h
        by_cases h2 : isTransactionType ty = false
        · simp [h2] at h
        · rw [if_neg h2] at h
          by_cases h3 : am = JSValue.undefined ∨ am = JSValue.null
          · simp [h3] at h
          · rw [if_neg h3] at h
            cases hco : toNumber am with
            | none => rw [hco] at h; simp at h
            | some amount =>
                rw [hco] at h
                dsimp only at h
                by_cases h4 : amount ≤ 0
                · simp [h4] at h
                · rw [if_neg h4] at h
                  cases h
                  have h2' : isTransactionType ty = true := by simpa using h2
                  refine ⟨?_, lt_of_not_le h4⟩
                  cases ty with
                  | str s =>
                      simp only [isTransactionType, Bool.or_eq_true,
                        decide_eq_true_eq] at h2'
                      rcases h2' with h' | h'
                      · exact Or.inl (by simp [Txn.typeIs, h'])
                      · exact Or.inr (by simp [Txn.typeIs, h'])
                  | num q => simp [isTransactionType] at h2'
                  | bool b => simp [isTransactionType] at h2'
                  | null => simp [isTransactionType] at h2'
                  | undefined => simp [isTransactionType] at h2'
                  | object => simp [isTransactionType] at h2'

theorem validateTransaction_valid {ty am : JSValue} {a : Rat}
    (hty : ty.isTruthy = true) (htt : isTransactionType ty = true)
    (hu : am ≠ JSValue.undefined) (hn : am ≠ JSValue.null)
    (hco : toNumber am = some a) (hpos : 0 < a) :
    validateTransaction (.mk ty am) = .ok a := by
  simp only [validateTransaction, hty, htt, hco]
  simp [hu, hn, not_le.mpr hpos]

theorem validateTransaction_nonpositive {ty am : JSValue} {a : Rat}
    (hty : ty.isTruthy = true) (htt : isTransactionType ty = true)
    (hu : am ≠ JSValue.undefined) (hn : am ≠ JSValue.null)
    (hco : toNumber am = some a) (hle : a ≤ 0) :
    validateTransaction (.mk ty am) = .err (.amountMustBePositive a) := by
  simp only [validateTransaction, hty, htt, hco]
  simp [hu, hn, hle]

theorem applyTransaction_rejected {acc : Account} {i : Nat} {t txn : Txn}
    {reason : Reason} {idx : Nat} {acc' : Account}
    (h : applyTransaction acc i t = (.rejected txn reason idx, acc')) :
    acc' = acc ∧ txn = t ∧ idx = i + 1 := by
  unfold applyTransaction at h
  cases hv : validateTransaction t with
  | err r =>
      rw [hv] at h
      dsimp only at h
      injection h with h1 h2
      injection h1 with ht hr hi
      exact ⟨h2.symm, ht.symm, hi.symm⟩
  | ok a =>
      rw [hv] at h
      dsimp only at h
      by_cases hw : t.typeIs "Withdraw" = true ∧ a > acc.balance
      · rw [if_pos hw] at h
        injection h with h1 h2
        injection h1 with ht hr hi
        exact ⟨h2.symm, ht.symm, hi.symm⟩
      · rw [if_neg hw] at h
        simp at h

theorem applyTransaction_applied {acc : Account} {i : Nat} {t txn : Txn}
    {a : Rat} {idx : Nat} {acc' : Account}
    (h : applyTransaction acc i t = (.applied txn a idx, acc')) :
    txn = t ∧ idx = i + 1 ∧ validateTransaction t = .ok a ∧
      ¬(t.typeIs "Withdraw" = true ∧ a > acc.balance) ∧
      acc' = { acc with balance := acc.balance +
        (if t.typeIs "Deposit" then a else -a) } := by
  unfold applyTransaction at h
  cases hv : validateTransaction t with
  | err r =>
      rw [hv] at h
      dsimp only at h
      simp at h
  | ok a' =>
      rw [hv] at h
      dsimp only at h
      by_cases hw : t.typeIs "Withdraw" = true ∧ a' > acc.balance
      · rw [if_pos hw] at h
        simp at h
      · rw [if_neg hw] at h
        injection h with h1 h2
        injection h1 with ht ha hi
        subst ha
        exact ⟨ht.symm, hi.symm, rfl, hw, h2.symm⟩

theorem typeIs_withdraw_not_deposit {t : Txn} (h : t.typeIs "Withdraw" = true) :
    t.typeIs "Deposit" = false := by
  cases t with
  | notAnObject => simp [Txn.typeIs] at h
  | mk ty am =>
      simp only [Txn.typeIs, decide_eq_true_eq] at h
      simp [Txn.typeIs, h]

theorem processLoop_cons (acc : Account) (i : Nat) (t : Txn) (rest : List Txn) :
    processLoop acc i (t :: rest) =
      match applyTransaction acc i t with
      | (.applied txn amount idx, account') =>
          ((⟨txn, amount, idx⟩ : AppliedEntry) ::
              (processLoop account' (i + 1) rest).1,
            (processLoop account' (i + 1) rest).2.1,
            (processLoop account' (i + 1) rest).2.2)
      | (.rejected txn reason idx, account') =>
          ((processLoop account' (i + 1) rest).1,
            .txn txn reason idx :: (processLoop account' (i + 1) rest).2.1,
            (processLoop account' (i + 1) rest).2.2) := by
  simp only [processLoop]

theorem processLoop_balance (txns : List Txn) : ∀ (acc : Account) (i : Nat),
    (processLoop acc i txns).2.2.balance =
      acc.balance + sumOfType "Deposit" (processLoop acc i txns).1
        - sumOfType "Withdraw" (processLoop acc i txns).1 := by
  induction txns with
  | nil => intro acc i; simp [processLoop, sumOfType_nil]
  | cons t rest ih =>
      intro acc i
      rw [processLoop_cons]
      rcases happ : applyTransaction acc i t with ⟨o, acc1⟩
      cases o with
      | applied txn a idx =>
          obtain ⟨ht, hidx, hval, hwno, hacc1⟩ := applyTransaction_applied happ
          subst ht
          dsimp only
          rw [ih acc1 (i + 1), sumOfType_cons, sumOfType_cons, hacc1]
          dsimp only
          rcases (validateTransaction_ok_type hval).1 with hD | hW
          · simp only [hD, typeIs_deposit_not_withdraw hD]
            simp
            ring
          · simp only [hW, typeIs_withdraw_not_deposit hW]
            simp
            ring
      | rejected txn reason idx =>
          obtain ⟨hacc1, ht, hidx⟩ := applyTransaction_rejected happ
          dsimp only
          rw [ih acc1 (i + 1), hacc1]

theorem processLoop_length (txns : List Txn) : ∀ (acc : Account) (i : Nat),
    (processLoop acc i txns).1.length + (processLoop acc i txns).2.1.length =
      txns.length := by
  induction txns with
  | nil => intro acc i; simp [processLoop]
  | cons t rest ih =>
      intro acc i
      rw [processLoop_cons]
      rcases happ : applyTransaction acc i t with ⟨o, acc1⟩
      cases o with
      | applied txn a idx =>
          dsimp only [List.length_cons]
          rw [Nat.succ_add, ih acc1 (i + 1)]
      | rejected txn reason idx =>
          dsimp only [List.length_cons]
          rw [Nat.add_succ, ih acc1 (i + 1)]

theorem range'_cons (s n : Nat) :
    List.range' s (n + 1) = s :: List.range' (s + 1) n := rfl

theorem processLoop_positions (txns : List Txn) : ∀ (acc : Account) (i : Nat),
    ((processLoop acc i txns).1.map AppliedEntry.index ++
      (processLoop acc i txns).2.1.map RejectedEntry.position).Perm
      (List.range' (i + 1) txns.length) := by
  induction txns with
  | nil => intro acc i; simp [processLoop]
  | cons t rest ih =>
      intro acc i
      rw [processLoop_cons]
      rcases happ : applyTransaction acc i t with ⟨o, acc1⟩
      cases o with
      | applied txn a idx =>
          obtain ⟨ht, hidx, hval, hwno, hacc1⟩ := applyTransaction_applied happ
          subst hidx
          dsimp only [List.length_cons]
          rw [range'_cons]
          simp only [List.map_cons, List.cons_append]
          exact (ih acc1 (i + 1)).cons (i + 1)
      | rejected txn reason idx =>
          obtain ⟨hacc1, ht, hidx⟩ := applyTransaction_rejected happ
          subst hidx
          dsimp only [List.length_cons]
          rw [range'_cons]
          refine List.Perm.trans ?_ ((ih acc1 (i + 1)).cons (i + 1))
          simp only [List.map_cons, RejectedEntry.position]
          exact List.perm_middle

theorem processLoop_rejected_mem (txns : List Txn) : ∀ (acc : Account) (i : Nat),
    ∀ r ∈ (processLoop acc i txns).2.1, ∃ t reason idx,
      r = RejectedEntry.txn t reason idx ∧ i + 1 ≤ idx ∧
      txns[idx - (i + 1)]? = some t := by
  induction txns with
  | nil => intro acc i r hr; simp [processLoop] at hr
  | cons t rest ih =>
      intro acc i
      rw [processLoop_cons]
      rcases happ : applyTransaction acc i t with ⟨o, acc1⟩
      cases o with
      | applied txn a idx =>
          intro r hr
          dsimp only at hr
          obtain ⟨t', reason', idx', hre, hge, hget⟩ := ih acc1 (i + 1) r hr
          refine ⟨t', reason', idx', hre, by omega, ?_⟩
          have hk : idx' - (i + 1) = (idx' - (i + 2)) + 1 := by omega
          rw [hk, List.getElem?_cons_succ]
          exact hget
      | rejected txn reason idx =>
          obtain ⟨hacc1, ht, hidx⟩ := applyTransaction_rejected happ
          subst hidx ht
          intro r hr
          dsimp only at hr
          rcases List.mem_cons.mp hr with hr | hr
          · exact ⟨txn, reason, i + 1, hr, le_refl _,
              by simp⟩
          · obtain ⟨t', reason', idx', hre, hge, hget⟩ := ih acc1 (i + 1) r hr
            refine ⟨t', reason', idx', hre, by omega, ?_⟩
            have hk : idx' - (i + 1) = (idx' - (i + 2)) + 1 := by omega
            rw [hk, List.getElem?_cons_succ]
            exact hget

theorem processLoop_applied_mem (txns : List Txn) : ∀ (acc : Account) (i : Nat),
    ∀ e ∈ (processLoop acc i txns).1, i + 1 ≤ e.index ∧
      txns[e.index - (i + 1)]? = some e.transaction ∧
      validateTransaction e.transaction = .ok e.amount := by
  induction txns with
  | nil => intro acc i e he; simp [processLoop] at he
  | cons t rest ih =>
      intro acc i
      rw [processLoop_cons]
      rcases happ : applyTransaction acc i t with ⟨o, acc1⟩
      cases o with
      | applied txn a idx =>
          obtain ⟨ht, hidx, hval, hwno, hacc1⟩ := applyTransaction_applied happ
          subst hidx ht
          intro e he
          dsimp only at he
          rcases List.mem_cons.mp he with he | he
          · subst he
            exact ⟨le_refl _, by simp, hval⟩
          · obtain ⟨hge, hget, hv⟩ := ih acc1 (i + 1) e he
            refine ⟨by omega, ?_, hv⟩
            have hk : e.index - (i + 1) = (e.index - (i + 2)) + 1 := by omega
            rw [hk, List.getElem?_cons_succ]
            exact hget
      | rejected txn reason idx =>
          intro e he
          dsimp only at he
          obtain ⟨hge, hget, hv⟩ := ih acc1 (i + 1) e he
          refine ⟨by omega, ?_, hv⟩
          have hk : e.index - (i + 1) = (e.index - (i + 2)) + 1 := by omega
          rw [hk, List.getElem?_cons_succ]
          exact hget

theorem processLoop_fields (txns : List Txn) : ∀ (acc : Account) (i : Nat),
    (processLoop acc i txns).2.2.accountNumber = acc.accountNumber ∧
    (processLoop acc i txns).2.2.accountHolder = acc.accountHolder ∧
    (processLoop acc i txns).2.2.currency = acc.currency ∧
    (processLoop acc i txns).2.2.initialBalance = acc.initialBalance := by
  induction txns with
  | nil => intro acc i; exact ⟨rfl, rfl, rfl, rfl⟩
  | cons t rest ih =>
      intro acc i
      rw [processLoop_cons]
      rcases happ : applyTransaction acc i t with ⟨o, acc1⟩
      cases o with
      | applied txn a idx =>
          obtain ⟨ht, hidx, hval, hwno, hacc1⟩ := applyTransaction_applied happ
          subst hacc1
          dsimp only
          exact ih _ (i + 1)
      | rejected txn reason idx =>
          obtain ⟨hacc1, ht, hidx⟩ := applyTransaction_rejected happ
          subst hacc1
          dsimp only
          exact ih _ (i + 1)

theorem processBankingTransaction_valid (an ah ib cur : JSValue)
    (txns : List Txn) (b0 : Rat)
    (han : an.isTruthy = true) (hah : ah.isTruthy = true)
    (hibu : ib ≠ JSValue.undefined) (hibn : ib ≠ JSValue.null)
    (hcur : cur.isTruthy = true) (hco : toNumber ib = some b0) :
    processBankingTransaction (.obj an ah ib cur (some txns)) =
      { applied := (processLoop ⟨an, ah, cur, b0, b0⟩ 0 txns).1,
        rejected := (processLoop ⟨an, ah, cur, b0, b0⟩ 0 txns).2.1,
        account := some (processLoop ⟨an, ah, cur, b0, b0⟩ 0 txns).2.2,
        logMessage := .completed
          (processLoop ⟨an, ah, cur, b0, b0⟩ 0 txns).1.length
          (processLoop ⟨an, ah, cur, b0, b0⟩ 0 txns).2.1.length } := by
  simp only [processBankingTransaction, han, hah, hcur, hco]
  simp only [Bool.true_eq_false, if_false, hibu, hibn, or_self, ite_false]

/-- Claim C9: Scenario C — initial balance `"500.50"`, transactions
[Deposit `"250.75"`, Withdraw 0, Withdraw 750.25].  The deposit is applied
bringing the balance to 751.25, Withdraw 0 is rejected as non-positive, and
Withdraw 750.25 is applied (750.25 ≤ 751.25), giving exactly 2 applied,
1 rejected and ending balance 1.00. -/
theorem c9_scenario_c :
    (applyTransaction
        ⟨.str "ACC003", .str "Bob Johnson", .str "GBP", 500.5, 500.5⟩ 0
        (.mk (.str "Deposit") (.str "250.75"))).2.balance = 751.25 ∧
    processBankingTransaction
      (.obj (.str "ACC003") (.str "Bob Johnson") (.str "500.50") (.str "GBP")
        (some [ .mk (.str "Deposit") (.str "250.75"),
                .mk (.str "Withdraw") (.num 0),
                .mk (.str "Withdraw") (.num 750.25) ])) =
      { applied := [⟨.mk (.str "Deposit") (.str "250.75"), 250.75, 1⟩,
                    ⟨.mk (.str "Withdraw") (.num 750.25), 750.25, 3⟩],
        rejected := [.txn (.mk (.str "Withdraw") (.num 0))
          (.amountMustBePositive 0) 2],
        account := some ⟨.str "ACC003", .str "Bob Johnson", .str "GBP",
          500.5, 1⟩,
        logMessage := .completed 2 1 } := by
  constructor
  · with_unfolding_all rfl
  · with_unfolding_all rfl

/-- Claim C10: a `type` field that is present but falsy (empty string, 0,
false, ...) is rejected as "Missing transaction type", never as
"Unknown transaction type"; the latter arises only for truthy values
outside {Deposit, Withdraw}. -/
theorem c10_falsy_type (ty am : JSValue) :
    (ty.isTruthy = false →
      validateTransaction (.mk ty am) = .err .missingTransactionType) ∧
    (∀ v, validateTransaction (.mk ty am) = .err (.unknownTransactionType v) →
      ty.isTruthy = true ∧ v = ty ∧ isTransactionType ty = false) := by
  constructor
  · intro h
    simp [validateTransaction, h]
  · intro v h
    by_cases h1 : ty.isTruthy = false
    · simp [validateTransaction, h1] at h
    · have h1' : ty.isTruthy = true := by simpa using h1
      refine ⟨h1', ?_⟩
      simp only [validateTransaction, h1', Bool.true_eq_false, if_false,
        ite_false] at h
      by_cases h2 : isTransactionType ty = false
      · rw [if_pos h2] at h
        injection h with hr
        injection hr with hv
        exact ⟨hv.symm, h2⟩
      · rw [if_neg h2] at h
        by_cases h3 : am = JSValue.undefined ∨ am = JSValue.null
        · simp [h3] at h
        · rw [if_neg h3] at h
          cases hco : toNumber am with
          | none => rw [hco] at h; simp at h
          | some a =>
              rw [hco] at h
              dsimp only at h
              by_cases h4 : a ≤ 0
              · simp [h4] at h
              · simp [h4] at h

/-- Witness for C10 at concrete inputs: an empty-string type yields
"Missing transaction type", and "Unknown transaction type" payload data
for a truthy unknown type. -/
theorem c10_falsy_type_witness :
    validateTransaction (.mk (.str "") (.num 1)) =
      .err .missingTransactionType ∧
    ((JSValue.str "Unknown").isTruthy = true ∧
      JSValue.str "Unknown" = JSValue.str "Unknown" ∧
      isTransactionType (.str "Unknown") = false) :=
  ⟨(c10_falsy_type (.str "") (.num 1)).1 (by decide),
   (c10_falsy_type (.str "Unknown") (.num 50)).2 (.str "Unknown") (by decide)⟩

/-- Claim C2: a Withdraw whose coerced amount strictly exceeds the running
balance at evaluation time is rejected with the insufficient-balance reason
carrying the required amount and the current balance (and the account is
left unchanged, so no later deposit can resurrect it); a Withdraw exactly
equal to the current balance is applied and drains the balance to zero. -/
theorem c2_withdraw_current_balance (acc : Account) (i : Nat) (t : Txn)
    (a : Rat) (hw : t.typeIs "Withdraw" = true)
    (hv : validateTransaction t = .ok a) :
    (a > acc.balance →
      applyTransaction acc i t =
        (.rejected t (.insufficientBalance a acc.balance) (i + 1), acc)) ∧
    (a = acc.balance →
      applyTransaction acc i t =
        (.applied t a (i + 1), { acc with balance := 0 })) := by
  constructor
  · intro hgt
    unfold applyTransaction
    rw [hv]
    dsimp only
    rw [if_pos ⟨hw, hgt⟩]
  · intro heq
    unfold applyTransaction
    rw [hv]
    dsimp only
    rw [if_neg (fun hc => by rw [heq] at hc; exact lt_irrefl _ hc.2)]
    have hD : t.typeIs "Deposit" = false := typeIs_withdraw_not_deposit hw
    simp only [hD, Bool.false_eq_true, if_false, ite_false]
    rw [heq]
    simp

/-- Witness for C2: withdrawing 200 against balance 100 is rejected with
required 200 / available 100; withdrawing 100 against balance 100 is
applied and leaves balance 0. -/
theorem c2_withdraw_current_balance_witness :
    (applyTransaction ⟨.str "A", .str "H", .str "USD", 100, 100⟩ 0
        (.mk (.str "Withdraw") (.num 200)) =
      (.rejected (.mk (.str "Withdraw") (.num 200))
        (.insufficientBalance 200 100) 1,
        ⟨.str "A", .str "H", .str "USD", 100, 100⟩)) ∧
    (applyTransaction ⟨.str "A", .str "H", .str "USD", 100, 100⟩ 0
        (.mk (.str "Withdraw") (.num 100)) =
      (.applied (.mk (.str "Withdraw") (.num 100)) 100 1,
        { (⟨.str "A", .str "H", .str "USD", 100, 100⟩ : Account) with
            balance := 0 })) :=
  ⟨(c2_withdraw_current_balance ⟨.str "A", .str "H", .str "USD", 100, 100⟩ 0
      (.mk (.str "Withdraw") (.num 200)) 200 (by decide)
      (by with_unfolding_all rfl)).1 (by norm_num),
   (c2_withdraw_current_balance ⟨.str "A", .str "H", .str "USD", 100, 100⟩ 0
      (.mk (.str "Withdraw") (.num 100)) 100 (by decide)
      (by with_unfolding_all rfl)).2 rfl⟩

/-- Claim C4: a transaction whose coerced amount is ≤ 0 (zero included)
is rejected with the "Amount must be positive" reason and leaves the
account unchanged; moreover no transaction is ever applied with a
non-positive amount. -/
theorem c4_nonpositive_rejected (acc : Account) (i : Nat) (ty am : JSValue)
    (a : Rat) (hty : ty.isTruthy = true) (htt : isTransactionType ty = true)
    (hu : am ≠ JSValue.undefined) (hn : am ≠ JSValue.null)
    (hco : toNumber am = some a) (hle : a ≤ 0) :
    applyTransaction acc i (.mk ty am) =
      (.rejected (.mk ty am) (.amountMustBePositive a) (i + 1), acc) ∧
    (∀ (t txn : Txn) (amt : Rat) (idx : Nat) (acc' : Account),
      applyTransaction acc i t = (.applied txn amt idx, acc') → 0 < amt) := by
  constructor
  · unfold applyTransaction
    rw [validateTransaction_nonpositive hty htt hu hn hco hle]
  · intro t txn amt idx acc' h
    exact (validateTransaction_ok_type (applyTransaction_applied h).2.2.1).2

/-- Witness for C4: Withdraw 0 is rejected as non-positive with the account
unchanged. -/
theorem c4_nonpositive_rejected_witness :
    applyTransaction ⟨.str "A", .str "H", .str "USD", 10, 10⟩ 1
      (.mk (.str "Withdraw") (.num 0)) =
      (.rejected (.mk (.str "Withdraw") (.num 0)) (.amountMustBePositive 0) 2,
        ⟨.str "A", .str "H", .str "USD", 10, 10⟩) :=
  (c4_nonpositive_rejected ⟨.str "A", .str "H", .str "USD", 10, 10⟩ 1
    (.str "Withdraw") (.num 0) 0 (by decide) (by decide) (by decide)
    (by decide) rfl (by norm_num)).1

/-- Claim C1: for every structurally valid input, the ending balance equals
the coerced initial balance plus the sum of applied Deposit amounts minus
the sum of applied Withdraw amounts. -/
theorem c1_ending_balance (an ah ib cur : JSValue) (txns : List Txn)
    (b0 : Rat) (han : an.isTruthy = true) (hah : ah.isTruthy = true)
    (hibu : ib ≠ JSValue.undefined) (hibn : ib ≠ JSValue.null)
    (hcur : cur.isTruthy = true) (hco : toNumber ib = some b0) :
    ∃ acc : Account,
      (processBankingTransaction (.obj an ah ib cur (some txns))).account =
        some acc ∧
      acc.balance = b0
        + sumOfType "Deposit"
            (processBankingTransaction (.obj an ah ib cur (some txns))).applied
        - sumOfType "Withdraw"
            (processBankingTransaction (.obj an ah ib cur (some txns))).applied := by
  rw [processBankingTransaction_valid an ah ib cur txns b0 han hah hibu hibn
      hcur hco]
  refine ⟨_, rfl, ?_⟩
  simpa using processLoop_balance txns ⟨an, ah, cur, b0, b0⟩ 0

/-- Witness for C1 on Scenario A's data (initial 1000, Deposit 500,
Withdraw 200, Deposit 300). -/
theorem c1_ending_balance_witness :
    ∃ acc : Account,
      (processBankingTransaction (.obj (.str "ACC001") (.str "John Doe")
        (.num 1000) (.str "USD")
        (some [ .mk (.str "Deposit") (.num 500),
                .mk (.str "Withdraw") (.num 200),
                .mk (.str "Deposit") (.num 300) ]))).account = some acc ∧
      acc.balance = 1000
        + sumOfType "Deposit"
            (processBankingTransaction (.obj (.str "ACC001") (.str "John Doe")
              (.num 1000) (.str "USD")
              (some [ .mk (.str "Deposit") (.num 500),
                      .mk (.str "Withdraw") (.num 200),
                      .mk (.str "Deposit") (.num 300) ]))).applied
        - sumOfType "Withdraw"
            (processBankingTransaction (.obj (.str "ACC001") (.str "John Doe")
              (.num 1000) (.str "USD")
              (some [ .mk (.str "Deposit") (.num 500),
                      .mk (.str "Withdraw") (.num 200),
                      .mk (.str "Deposit") (.num 300) ]))).applied :=
  c1_ending_balance (.str "ACC001") (.str "John Doe") (.num 1000) (.str "USD")
    [ .mk (.str "Deposit") (.num 500),
      .mk (.str "Withdraw") (.num 200),
      .mk (.str "Deposit") (.num 300) ] 1000
    (by decide) (by decide) (by decide) (by decide) (by decide) rfl

/-- Claim C7: in a structurally valid run every input element produces
exactly one outcome: applied count plus rejected count equals the input
length, the stored 1-based positions of applied and rejected entries
together are a permutation of 1..n (so each element lands in exactly one of
the two sequences), every rejected entry is a per-transaction entry with
exactly one reason and the element's 1-based position, and every applied
entry points back to its element. -/
theorem c7_exactly_one_outcome (an ah ib cur : JSValue) (txns : List Txn)
    (b0 : Rat) (han : an.isTruthy = true) (hah : ah.isTruthy = true)
    (hibu : ib ≠ JSValue.undefined) (hibn : ib ≠ JSValue.null)
    (hcur : cur.isTruthy = true) (hco : toNumber ib = some b0) :
    (processBankingTransaction (.obj an ah ib cur (some txns))).applied.length
      + (processBankingTransaction
          (.obj an ah ib cur (some txns))).rejected.length = txns.length ∧
    ((processBankingTransaction (.obj an ah ib cur (some txns))).applied.map
        AppliedEntry.index ++
      (processBankingTransaction (.obj an ah ib cur (some txns))).rejected.map
        RejectedEntry.position).Perm (List.range' 1 txns.length) ∧
    (∀ r ∈ (processBankingTransaction
        (.obj an ah ib cur (some txns))).rejected,
      ∃ t reason idx, r = RejectedEntry.txn t reason idx ∧ 1 ≤ idx ∧
        txns[idx - 1]? = some t) ∧
    (∀ e ∈ (processBankingTransaction
        (.obj an ah ib cur (some txns))).applied,
      1 ≤ e.index ∧ txns[e.index - 1]? = some e.transaction) := by
  rw [processBankingTransaction_valid an ah ib cur txns b0 han hah hibu hibn
      hcur hco]
  refine ⟨?_, ?_, ?_, ?_⟩
  · simpa using processLoop_length txns ⟨an, ah, cur, b0, b0⟩ 0
  · simpa using processLoop_positions txns ⟨an, ah, cur, b0, b0⟩ 0
  · intro r hr
    simpa using processLoop_rejected_mem txns ⟨an, ah, cur, b0, b0⟩ 0 r
      (by simpa using hr)
  · intro e he
    have h := processLoop_applied_mem txns ⟨an, ah, cur, b0, b0⟩ 0 e
      (by simpa using he)
    exact ⟨h.1, by simpa using h.2.1⟩

/-- Witness for C7 on Scenario C's data. -/
theorem c7_exactly_one_outcome_witness :
    (processBankingTransaction (.obj (.str "ACC003") (.str "Bob Johnson")
      (.str "500.50") (.str "GBP")
      (some [ .mk (.str "Deposit") (.str "250.75"),
              .mk (.str "Withdraw") (.num 0),
              .mk (.str "Withdraw") (.num 750.25) ]))).applied.length
      + (processBankingTransaction (.obj (.str "ACC003") (.str "Bob Johnson")
      (.str "500.50") (.str "GBP")
      (some [ .mk (.str "Deposit") (.str "250.75"),
              .mk (.str "Withdraw") (.num 0),
              .mk (.str "Withdraw") (.num 750.25) ]))).rejected.length =
      ([ Txn.mk (.str "Deposit") (.str "250.75"),
         Txn.mk (.str "Withdraw") (.num 0),
         Txn.mk (.str "Withdraw") (.num 750.25) ]).length :=
  (c7_exactly_one_outcome (.str "ACC003") (.str "Bob Johnson")
    (.str "500.50") (.str "GBP")
    [ .mk (.str "Deposit") (.str "250.75"),
      .mk (.str "Withdraw") (.num 0),
      .mk (.str "Withdraw") (.num 750.25) ] 500.5
    (by decide) (by decide) (by decide) (by decide) (by decide)
    (by with_unfolding_all rfl)).1

/-- Claim C8: rejections leave the account unchanged (all fields, stored
initial balance included); an applied transaction changes exactly the
balance, by its coerced amount, Deposit adding and Withdraw subtracting;
and the balance starts out equal to the coerced initial balance (an empty
run ends with balance = initial balance = coerced input). -/
theorem c8_balance_mutation (acc : Account) (i : Nat) (t : Txn) :
    (∀ (txn : Txn) (reason : Reason) (idx : Nat) (acc' : Account),
        applyTransaction acc i t = (.rejected txn reason idx, acc') →
        acc' = acc) ∧
    (∀ (txn : Txn) (a : Rat) (idx : Nat) (acc' : Account),
        applyTransaction acc i t = (.applied txn a idx, acc') →
          acc'.accountNumber = acc.accountNumber ∧
          acc'.accountHolder = acc.accountHolder ∧
          acc'.currency = acc.currency ∧
          acc'.initialBalance = acc.initialBalance ∧
          acc'.balance = acc.balance +
            (if t.typeIs "Deposit" then a else -a)) ∧
    (∀ (an ah ib cur : JSValue) (b0 : Rat), an.isTruthy = true →
        ah.isTruthy = true → ib ≠ JSValue.undefined → ib ≠ JSValue.null →
        cur.isTruthy = true → toNumber ib = some b0 →
        processBankingTransaction (.obj an ah ib cur (some [])) =
          { applied := [], rejected := [],
            account := some ⟨an, ah, cur, b0, b0⟩,
            logMessage := .completed 0 0 }) := by
  refine ⟨?_, ?_, ?_⟩
  · intro txn reason idx acc' h
    exact (applyTransaction_rejected h).1
  · intro txn a idx acc' h
    obtain ⟨ht, hidx, hval, hwno, hacc⟩ := applyTransaction_applied h
    subst hacc
    exact ⟨rfl, rfl, rfl, rfl, rfl⟩
  · intro an ah ib cur b0 han hah hibu hibn hcur hco
    rw [processBankingTransaction_valid an ah ib cur [] b0 han hah hibu hibn
        hcur hco]
    rfl

/-- Witness for C8: a rejected Withdraw (insufficient funds) leaves the
account record untouched, and an empty valid run keeps balance = coerced
initial balance. -/
theorem c8_balance_mutation_witness :
    (⟨.str "A", .str "H", .str "USD", 10, 10⟩ : Account) =
      ⟨.str "A", .str "H", .str "USD", 10, 10⟩ ∧
    processBankingTransaction (.obj (.str "A") (.str "H") (.str "2000")
        (.str "EUR") (some [])) =
      { applied := [], rejected := [],
        account := some ⟨.str "A", .str "H", .str "EUR", 2000, 2000⟩,
        logMessage := .completed 0 0 } :=
  ⟨(c8_balance_mutation ⟨.str "A", .str "H", .str "USD", 10, 10⟩ 0
      (.mk (.str "Withdraw") (.num 50))).1
      (.mk (.str "Withdraw") (.num 50)) (.insufficientBalance 50 10) 1
      ⟨.str "A", .str "H", .str "USD", 10, 10⟩ (by with_unfolding_all rfl),
   (c8_balance_mutation ⟨.str "A", .str "H", .str "USD", 10, 10⟩ 0
      (.mk (.str "Withdraw") (.num 50))).2.2 (.str "A") (.str "H")
      (.str "2000") (.str "EUR") 2000 (by decide) (by decide) (by decide)
      (by decide) (by decide) (by with_unfolding_all rfl)⟩

/-- Claim C6: every structural failure (non-object input; missing account
number, holder, initial balance or currency; non-coercible initial balance;
non-array transaction list) aborts the run before any transaction is
evaluated: the account is not created, the applied sequence is empty, and
the rejected sequence holds exactly one system-level entry carrying the
structural error and no transaction position. -/
theorem c6_structural_failures :
    processBankingTransaction .notAnObject =
      structuralResult .inputMustBeObject ∧
    (∀ an ah ib cur tr, an.isTruthy = false →
      processBankingTransaction (.obj an ah ib cur tr) =
        structuralResult .missingAccountNumber) ∧
    (∀ an ah ib cur tr, an.isTruthy = true → ah.isTruthy = false →
      processBankingTransaction (.obj an ah ib cur tr) =
        structuralResult .missingAccountHolder) ∧
    (∀ an ah ib cur tr, an.isTruthy = true → ah.isTruthy = true →
      (ib = JSValue.undefined ∨ ib = JSValue.null) →
      processBankingTransaction (.obj an ah ib cur tr) =
        structuralResult .missingInitialBalance) ∧
    (∀ an ah ib cur tr, an.isTruthy = true → ah.isTruthy = true →
      ib ≠ JSValue.undefined → ib ≠ JSValue.null → cur.isTruthy = false →
      processBankingTransaction (.obj an ah ib cur tr) =
        structuralResult .missingCurrency) ∧
    (∀ an ah ib cur, an.isTruthy = true → ah.isTruthy = true →
      ib ≠ JSValue.undefined → ib ≠ JSValue.null → cur.isTruthy = true →
      processBankingTransaction (.obj an ah ib cur none) =
        structuralResult .transactionsMustBeArray) ∧
    (∀ an ah ib cur txns, an.isTruthy = true → ah.isTruthy = true →
      ib ≠ JSValue.undefined → ib ≠ JSValue.null → cur.isTruthy = true →
      toNumber ib = none →
      processBankingTransaction (.obj an ah ib cur (some txns)) =
        structuralResult (.invalidInitialBalance ib)) ∧
    (∀ e : SystemError, (structuralResult e).applied = [] ∧
      (structuralResult e).rejected = [.system e] ∧
      (structuralResult e).account = none) := by
  refine ⟨rfl, ?_, ?_, ?_, ?_, ?_, ?_, fun e => ⟨rfl, rfl, rfl⟩⟩
  · intro an ah ib cur tr h
    simp [processBankingTransaction, h]
  · intro an ah ib cur tr h1 h2
    simp [processBankingTransaction, h1, h2]
  · intro an ah ib cur tr h1 h2 h3
    simp [processBankingTransaction, h1, h2, h3]
  · intro an ah ib cur tr h1 h2 h3 h4 h5
    simp [processBankingTransaction, h1, h2, h3, h4, h5]
  · intro an ah ib cur h1 h2 h3 h4 h5
    simp [processBankingTransaction, h1, h2, h3, h4, h5]
  · intro an ah ib cur txns h1 h2 h3 h4 h5 h6
    simp [processBankingTransaction, h1, h2, h3, h4, h5, h6]

/-- Witness for C6: a missing (undefined) initial balance aborts with the
single system-level missing-initial-balance rejection. -/
theorem c6_structural_failures_witness :
    processBankingTransaction (.obj (.str "ACC001") (.str "John")
      JSValue.undefined (.str "USD") (some [])) =
      structuralResult .missingInitialBalance :=
  c6_structural_failures.2.2.2.1 (.str "ACC001") (.str "John")
    JSValue.undefined (.str "USD") (some []) (by decide) (by decide)
    (Or.inl rfl)

/-- Counterexample to C5 as stated: for an input whose initial balance is
the non-coercible string "invalid" AND whose transactions field is not an
array, the code reports "Transactions must be an array", not
"Invalid initial balance" — the source checks `Array.isArray(transactions)`
before coercing the initial balance. -/
theorem c5_counterexample :
    toNumber (.str "invalid") = none ∧
    processBankingTransaction (.obj (.str "ACC001") (.str "John Doe")
        (.str "invalid") (.str "USD") none) =
      structuralResult .transactionsMustBeArray ∧
    structuralResult .transactionsMustBeArray ≠
      structuralResult (.invalidInitialBalance (.str "invalid")) := by
  refine ⟨by with_unfolding_all rfl, by with_unfolding_all rfl, by decide⟩

/-- Claim C5 (amended): structural validation is fail-fast — first failing
condition wins and exactly one structural error is reported — in the order
(1) required account-descriptor fields present, (2) transaction list is a
sequence, (3) initial balance coercible.  In particular, when the initial
balance is non-coercible and the transactions field is not a sequence, the
reported failure is the transaction-list one. -/
theorem c5_failfast_order (an ah ib cur : JSValue)
    (han : an.isTruthy = true) (hah : ah.isTruthy = true)
    (hibu : ib ≠ JSValue.undefined) (hibn : ib ≠ JSValue.null)
    (hcur : cur.isTruthy = true) :
    (processBankingTransaction (.obj an ah ib cur none) =
      structuralResult .transactionsMustBeArray) ∧
    (∀ txns, toNumber ib = none →
      processBankingTransaction (.obj an ah ib cur (some txns)) =
        structuralResult (.invalidInitialBalance ib)) ∧
    (∀ e : SystemError, (structuralResult e).rejected.length = 1) := by
  refine ⟨?_, ?_, fun e => rfl⟩
  · simp [processBankingTransaction, han, hah, hibu, hibn, hcur]
  · intro txns hco
    simp [processBankingTransaction, han, hah, hibu, hibn, hcur, hco]

/-- Witness for the amended C5 at a concrete input with a non-coercible
initial balance and a non-array transactions field. -/
theorem c5_failfast_order_witness :
    processBankingTransaction (.obj (.str "ACC001") (.str "John Doe")
      (.str "invalid") (.str "USD") none) =
      structuralResult .transactionsMustBeArray :=
  (c5_failfast_order (.str "ACC001") (.str "John Doe") (.str "invalid")
    (.str "USD") (by decide) (by decide) (by decide) (by decide)
    (by decide)).1

/-- Counterexample to C3 as stated: the boolean `true` is neither a native
number nor a numeric string, yet `Number(true)` is `1`, so a Deposit with
amount `true` passes coercion with value 1 and is not rejected with
"Invalid amount". -/
theorem c3_counterexample :
    toNumber (.bool true) = some 1 ∧
    validateTransaction (.mk (.str "Deposit") (.bool true)) = .ok 1 ∧
    validateTransaction (.mk (.str "Deposit") (.bool true)) ≠
      .err (.invalidAmount (.bool true)) := by
  have hok : validateTransaction (.mk (.str "Deposit") (.bool true)) =
      .ok 1 := by with_unfolding_all rfl
  refine ⟨rfl, hok, ?_⟩
  rw [hok]
  intro h
  exact ValidationResult.noConfusion h

/-- Claim C3 (amended): the single coercion function accepts native numbers
and numeric strings (decimal strings included) and fails for non-numeric
strings and plain objects — a failed coercion of a transaction amount
yields the "Invalid amount" rejection carrying the raw value — but not
every non-number, non-numeric-string value fails: JS `Number` coercion
maps booleans to 0/1 (and `null` to 0), so for example `true` coerces
to 1. -/
theorem c3_coercion :
    (∀ q : Rat, toNumber (.num q) = some q) ∧
    toNumber (.str "250.75") = some 250.75 ∧
    toNumber (.str "invalid") = none ∧
    toNumber JSValue.object = none ∧
    (∀ ty v, ty.isTruthy = true → isTransactionType ty = true →
      v ≠ JSValue.undefined → v ≠ JSValue.null → toNumber v = none →
      validateTransaction (.mk ty v) = .err (.invalidAmount v)) ∧
    toNumber (.bool true) = some 1 := by
  refine ⟨fun q => rfl, by with_unfolding_all rfl, by with_unfolding_all rfl,
    rfl, ?_, rfl⟩
  intro ty v hty htt hu hn hco
  simp only [validateTransaction, hty, htt, hco]
  simp [hu, hn]

/-- Witness for the amended C3: a plain-object amount fails coercion and is
rejected with "Invalid amount" carrying the raw value. -/
theorem c3_coercion_witness :
    validateTransaction (.mk (.str "Deposit") JSValue.object) =
      .err (.invalidAmount JSValue.object) :=
  c3_coercion.2.2.2.2.1 (.str "Deposit") JSValue.object
    (by decide) (by decide) (by decide) (by decide) rfl
